import Mathlib

/-!
Verification of the node-circuit-breaker binding layer
(`src/circuit-breaker.decorator.ts`) against its specification.

The repository's own code is the decorator module: a module-level
`events` map (class name → circuit group → event name → method name),
the `onEvent` registration decorator, and the `CircuitBreaker` method
decorator, which resolves configuration defaults, constructs an opossum
breaker, attaches listeners and a fallback, and replaces the method by
a call to `breaker.fire`.  We embed those functions here.  The breaker
engine itself (the opossum library) is not part of the repository's
sources; where a property depends on engine behaviour we model the
engine from the specification (state machine, fallback routing) and say
so in the doc comment of each such definition.
-/

set_option autoImplicit false

namespace CB

/-- A JavaScript `Map` with string keys, embedded as an association list.
JS maps preserve insertion order, and `set` on an existing key updates
the value in place without moving the key; both facts matter to the
decorator's iteration (line 59 of the source), so the embedding keeps
them. -/
abbrev JsMap (α : Type) := List (String × α)

/-- `m.get(k)` of a JS map: the value at the (unique) matching key. -/
def jsGet {α : Type} : JsMap α → String → Option α
  | [], _ => none
  | (a, b) :: t, k => if a == k then some b else jsGet t k

/-- `m.has(k)` of a JS map. -/
def jsHas {α : Type} (m : JsMap α) (k : String) : Bool :=
  (jsGet m k).isSome

/-- `m.set(k, v)` of a JS map: update in place if the key is present
(the key keeps its position in iteration order), otherwise append at
the end (insertion order). -/
def jsSet {α : Type} : JsMap α → String → α → JsMap α
  | [], k, v => [(k, v)]
  | (a, b) :: t, k, v => if a == k then (k, v) :: t else (a, b) :: jsSet t k v

/-- The module-level `events` store of the decorator file (line 3):
class name → circuit group → event name → handler method name. -/
abbrev EventsMap := JsMap (JsMap (JsMap String))

/-- The `onEvent` decorator body (source lines 10–26): defaults the
circuit group to `"default"`, materialises the nested maps for the
class and the group, and stores `eventName ↦ propertyKey` in the
group's map.  The JS code mutates the retrieved inner maps through
live references; the pure embedding writes the updated inner maps
back, which yields the same resulting store. -/
def onEvent (events : EventsMap) (eventName : String)
    (circuitGroup : Option String) (className : String)
    (propertyKey : String) : EventsMap :=
  let g := circuitGroup.getD "default"
  let events1 := if jsHas events className then events else jsSet events className []
  let classEvents := (jsGet events1 className).getD []
  let classEvents1 := if jsHas classEvents g then classEvents else jsSet classEvents g []
  let circuitEvents := (jsGet classEvents1 g).getD []
  let circuitEvents1 := jsSet circuitEvents eventName propertyKey
  jsSet events1 className (jsSet classEvents1 g circuitEvents1)

/-- The registrations recorded for one class and circuit group: the
innermost map of the `events` store, empty when absent (the decorator's
`|| new Map()` at source lines 53–54). -/
def circuitEventsOf (events : EventsMap) (className g : String) : JsMap String :=
  (jsGet ((jsGet events className).getD []) g).getD []

/-- Default for `timeout` (source line 28). -/
def MAX_EXECUTION_TIME_MS : Nat := 1000
/-- Default for `errorThresholdPercentage` (source line 29). -/
def ERROR_THRESHOLD_PERCENTAGE : Nat := 20
/-- Default for `resetTimeout` (source line 30). -/
def CIRCUIT_RESET_TIMEOUT_MS : Nat := 5000
/-- Default for `volumeThreshold` (source line 31). -/
def MIN_REQUEST_COUNT : Nat := 5

/-- The opossum `Options` fields the decorator reads or writes.  A
field holds `none` when the caller omitted it (or passed
`null`/`undefined`, which `??` treats the same way). -/
structure Options where
  timeout : Option Nat := none
  errorThresholdPercentage : Option Nat := none
  resetTimeout : Option Nat := none
  volumeThreshold : Option Nat := none
  group : Option String := none
  deriving Repr, DecidableEq

/-- `Types.CircuitBreakerInput`: the decorator's parameter object. -/
structure CircuitBreakerInput where
  options : Option Options := none
  circuitGroup : Option String := none
  deriving Repr, DecidableEq

/-- The fully resolved option object `opt` built at source lines 39–47. -/
structure ResolvedOptions where
  timeout : Nat
  errorThresholdPercentage : Nat
  resetTimeout : Nat
  volumeThreshold : Nat
  group : String
  deriving Repr, DecidableEq

/-- Source lines 39–47: spread the caller's options, then overwrite the
four tunables with `caller ?? default` and `group` with
`circuitGroup ?? 'default'`.  The explicit fields are listed after the
spread, so they win over anything the spread brought in — in
particular over a `group` field inside `options`. -/
def resolveOptions (params : Option CircuitBreakerInput) : ResolvedOptions :=
  let o := (params.bind (fun p => p.options)).getD {}
  { timeout := o.timeout.getD MAX_EXECUTION_TIME_MS
    errorThresholdPercentage := o.errorThresholdPercentage.getD ERROR_THRESHOLD_PERCENTAGE
    resetTimeout := o.resetTimeout.getD CIRCUIT_RESET_TIMEOUT_MS
    volumeThreshold := o.volumeThreshold.getD MIN_REQUEST_COUNT
    group := (params.bind (fun p => p.circuitGroup)).getD "default" }

/-- JS truthiness of the string held (or not) by `circuitEvents.get("fallback")`
(source lines 57, 60, 74): `undefined` and the empty string are falsy. -/
def strTruthy : Option String → Bool
  | none => false
  | some s => !(s == "")

/-- The listener-attachment loop of source lines 59–72.  `entries` is
the class-and-group registration map in insertion order;
`fallbackMethod` is `circuitEvents.get("fallback")`; `targetHasFn m`
embeds `typeof target[m] === "function"`; `registered` is the
`registeredEvents` set of already-attached method names.  Returns the
`(eventName, methodName)` pairs passed to `breaker.on`, in order. -/
def registerLoop (fallbackMethod : Option String) (targetHasFn : String → Bool)
    (registered : List String) : List (String × String) → List (String × String)
  | [] => []
  | (eventName, methodName) :: rest =>
    if eventName == "fallback" && strTruthy fallbackMethod then
      registerLoop fallbackMethod targetHasFn registered rest
    else if targetHasFn methodName && !(registered.contains methodName) then
      (eventName, methodName) :: registerLoop fallbackMethod targetHasFn (methodName :: registered) rest
    else
      registerLoop fallbackMethod targetHasFn registered rest

/-- Everything one application of the `CircuitBreaker` decorator
configures on the fresh opossum breaker it constructs: the resolved
options, the `breaker.on` attachments in order, and the method name
registered via `breaker.fallback` (none when no usable fallback,
source lines 74–78). -/
structure BreakerSetup where
  opt : ResolvedOptions
  listeners : List (String × String)
  fallback : Option String
  deriving Repr, DecidableEq

/-- The decorator body, source lines 38–78 (everything except the
`new OpossumCircuitBreaker` allocation and the descriptor swap, which
are modelled separately): resolve options, look up this class's and
group's registrations, run the attachment loop, and register the
fallback when it names a function on the target. -/
def applyCircuitBreaker (events : EventsMap) (className : String)
    (targetHasFn : String → Bool) (params : Option CircuitBreakerInput) : BreakerSetup :=
  let opt := resolveOptions params
  let circuitEvents := circuitEventsOf events className opt.group
  let fallbackMethod := jsGet circuitEvents "fallback"
  let listeners := registerLoop fallbackMethod targetHasFn [] circuitEvents
  let fb := if strTruthy fallbackMethod && (fallbackMethod.map targetHasFn).getD false
            then fallbackMethod else none
  { opt := opt, listeners := listeners, fallback := fb }

/-- Allocation state for `new OpossumCircuitBreaker(...)` (source line 50):
each decoration constructs a fresh breaker object; object identity is
modelled by a counter. -/
structure DecoState where
  nextId : Nat
  allocated : List (Nat × BreakerSetup)
  deriving Repr, DecidableEq

/-- One full application of the `CircuitBreaker` decorator (source
lines 36–83): build the setup, allocate a fresh breaker carrying it,
and return the identity of the breaker the replaced method
(`descriptor.value = (...args) => breaker.fire(...args)`) closes
over. -/
def circuitBreakerDecorate (st : DecoState) (events : EventsMap) (className : String)
    (targetHasFn : String → Bool) (params : Option CircuitBreakerInput) :
    DecoState × Nat :=
  let setup := applyCircuitBreaker events className targetHasFn params
  ({ nextId := st.nextId + 1, allocated := st.allocated ++ [(st.nextId, setup)] }, st.nextId)

/- ## Spec-modelled breaker engine -/

/-- Argument, success value and error payloads of guarded calls,
kept concrete so properties are decidable. -/
abbrev Arg := Nat
/-- Success value of a guarded call. -/
abbrev Value := Nat
/-- Error payload raised by an operation or a fallback. -/
abbrev ErrVal := Nat

/-- Modelled from the spec: the error taxonomy of §7 for the breaker
engine, which is not in the repository's sources. -/
inductive GateError where
  | operationFailure (cause : ErrVal)
  | timeoutError
  | circuitOpenError
  | capacityExceededError
  | fallbackFailure (cause : ErrVal)
  deriving Repr, DecidableEq

/-- A fallback handler as the engine invokes it: original call
arguments and the triggering error, returning a substitute value or
raising its own error. -/
def FallbackHandler := List Arg → GateError → Except ErrVal Value

/-- The guarded operation, in a synchronous model: arguments to a
value or an error. -/
def Operation := List Arg → Except ErrVal Value

/-- The wrapper the decorator registers via `breaker.fallback` (source
lines 75–77): the user's method is called with the object
`{ input: args, err: error }`. -/
def decoratorFallback (impl : List Arg × GateError → Except ErrVal Value) : FallbackHandler :=
  fun args err => impl (args, err)

/-- Modelled from the spec: fallback routing of §4.5/§7 for the engine,
which is not in the repository's sources.  A successful outcome passes
through; a failure is intercepted by the registered fallback, whose
return value (or `fallbackFailure`-wrapped error) becomes the final
outcome; with no fallback the error propagates unchanged. -/
def finishCall (fallback : Option FallbackHandler) (args : List Arg)
    (res : Except GateError Value) : Except GateError Value :=
  match res with
  | .ok v => .ok v
  | .error e =>
    match fallback with
    | none => .error e
    | some f =>
      match f args e with
      | .ok v => .ok v
      | .error e2 => .error (.fallbackFailure e2)

/-- Modelled from the spec: the circuit states of §4.2 (CLOSED / OPEN
with its opening time / HALF_OPEN) for the engine, which is not in the
repository's sources. -/
inductive CState where
  | closed
  | opened (openedAt : Nat)
  | halfOpen
  deriving Repr, DecidableEq

/-- Result of the admission check: admitted, or rejected with the
taxonomy error, the operation not being invoked. -/
inductive AdmitResult where
  | admitted
  | rejected (e : GateError)
  deriving Repr, DecidableEq

/-- Modelled from the spec: the admission check of §4.2/§4.3 for the
engine, which is not in the repository's sources.  CLOSED admits; OPEN
rejects with `circuitOpenError` while the cooldown has not elapsed and
otherwise transitions to HALF_OPEN, admitting the single trial call;
HALF_OPEN with the trial outstanding rejects further calls. -/
def admitCall (resetTimeout : Nat) (st : CState) (now : Nat) : AdmitResult × CState :=
  match st with
  | .closed => (.admitted, .closed)
  | .opened t =>
    if now < t + resetTimeout then (.rejected .circuitOpenError, .opened t)
    else (.admitted, .halfOpen)
  | .halfOpen => (.rejected .circuitOpenError, .halfOpen)

/-- A sequence of admission checks against one circuit while no
admitted call has yet completed (the concurrent-arrival scenario of
§4.2's single-trial rule), threading the state. -/
def processAdmissions (resetTimeout : Nat) (st : CState) : List Nat → List AdmitResult
  | [] => []
  | t :: ts =>
    let r := admitCall resetTimeout st t
    r.1 :: processAdmissions resetTimeout r.2 ts

instance {ε α : Type} [DecidableEq ε] [DecidableEq α] : DecidableEq (Except ε α) := fun x y =>
  match x, y with
  | .ok a, .ok b =>
    if h : a = b then isTrue (by rw [h]) else isFalse (by intro hc; cases hc; exact h rfl)
  | .ok _, .error _ => isFalse (by intro hc; cases hc)
  | .error _, .ok _ => isFalse (by intro hc; cases hc)
  | .error e, .error f =>
    if h : e = f then isTrue (by rw [h]) else isFalse (by intro hc; cases hc; exact h rfl)

/-- Outcome of one synchronous guarded call: the final result after
fallback routing, and whether the underlying operation was invoked. -/
structure CallOutcome where
  result : Except GateError Value
  invokedOp : Bool
  deriving Repr, DecidableEq

/-- Modelled from the spec: one synchronous pass through the Execution
Gate of §4.3 for the engine, which is not in the repository's sources
(cache and capacity are not exercised by the claims settled against
this model and are left out).  Rejection routes `circuitOpenError`
through the fallback without invoking the operation; an admitted call
invokes the operation on exactly the given arguments; a HALF_OPEN
trial closes the circuit on success and re-opens it, restarting the
cooldown clock, on failure. -/
def gateStep (resetTimeout : Nat) (fallback : Option FallbackHandler) (op : Operation)
    (st : CState) (now : Nat) (args : List Arg) : CallOutcome × CState :=
  match admitCall resetTimeout st now with
  | (.rejected e, st2) =>
    ({ result := finishCall fallback args (.error e), invokedOp := false }, st2)
  | (.admitted, st2) =>
    match op args with
    | .ok v =>
      ({ result := .ok v, invokedOp := true },
       match st2 with
       | .halfOpen => .closed
       | s => s)
    | .error e =>
      ({ result := finishCall fallback args (.error (.operationFailure e)), invokedOp := true },
       match st2 with
       | .halfOpen => .opened now
       | s => s)

/-- The replaced descriptor of source lines 80–82:
`descriptor.value = function (...args) { return breaker.fire(...args); }`.
The wrapped method hands its argument list, unchanged, to the
breaker's fire path. -/
def wrappedOperation (resetTimeout : Nat) (fallback : Option FallbackHandler)
    (op : Operation) (st : CState) (now : Nat) : List Arg → CallOutcome × CState :=
  fun args => gateStep resetTimeout fallback op st now args

/- ## Lemmas about the JS map embedding -/

theorem jsGet_nil {α : Type} (k : String) : jsGet ([] : JsMap α) k = none := rfl

theorem jsGet_eq_none_of_not_has {α : Type} (m : JsMap α) (k : String)
    (h : jsHas m k = false) : jsGet m k = none := by
  unfold jsHas at h
  cases hg : jsGet m k with
  | none => rfl
  | some v => rw [hg] at h; simp at h

theorem jsGet_jsSet_self {α : Type} (v : α) (k : String) :
    ∀ (m : JsMap α), jsGet (jsSet m k v) k = some v := by
  intro m
  induction m with
  | nil => simp [jsSet, jsGet]
  | cons a t ih =>
    by_cases hak : a.1 = k
    · simp [jsSet, jsGet, hak]
    · have hak' : (a.1 == k) = false := by simp [hak]
      simp [jsSet, jsGet, hak', ih]

theorem beq_false_of_ne (a b : String) (h : a ≠ b) : (a == b) = false := by
  cases hb : a == b with
  | true => exact absurd (by simpa using hb) h
  | false => rfl

theorem jsGet_jsSet_ne {α : Type} (m : JsMap α) (k k' : String) (v : α)
    (h : k' ≠ k) : jsGet (jsSet m k v) k' = jsGet m k' := by
  have hk : (k == k') = false := beq_false_of_ne k k' (fun e => h e.symm)
  induction m with
  | nil => simp [jsSet, jsGet, hk]
  | cons a t ih =>
    obtain ⟨a1, a2⟩ := a
    by_cases hak : a1 = k
    · have hak2 : (a1 == k') = false := beq_false_of_ne a1 k' (fun e => h (e ▸ hak))
      simp [jsSet, jsGet, hak, hk, hak2]
    · have hak' : (a1 == k) = false := beq_false_of_ne a1 k hak
      by_cases hak2 : a1 = k'
      · have hT : (a1 == k') = true := by simp [hak2]
        simp [jsSet, jsGet, hak', hT]
      · have hak2' : (a1 == k') = false := beq_false_of_ne a1 k' hak2
        simp [jsSet, jsGet, hak', hak2', ih]

theorem jsGet_materialize {γ : Type} (m : JsMap (List γ)) (k : String) :
    (jsGet (if jsHas m k then m else jsSet m k []) k).getD [] = (jsGet m k).getD [] := by
  cases h : jsHas m k with
  | true => simp
  | false =>
    simp only [Bool.false_eq_true, if_false]
    rw [jsGet_jsSet_self, jsGet_eq_none_of_not_has m k h]
    rfl

theorem jsGet_materialize_ne {γ : Type} (m : JsMap (List γ)) (k k' : String) (h : k' ≠ k) :
    jsGet (if jsHas m k then m else jsSet m k []) k' = jsGet m k' := by
  cases hh : jsHas m k with
  | true => simp
  | false =>
    simp only [Bool.false_eq_true, if_false]
    exact jsGet_jsSet_ne m k k' [] h

/- ## Structure of the events store after `onEvent` -/

theorem circuitEventsOf_onEvent_self (ev : EventsMap) (en : String) (g? : Option String)
    (cls pk : String) :
    circuitEventsOf (onEvent ev en g? cls pk) cls (g?.getD "default")
      = jsSet (circuitEventsOf ev cls (g?.getD "default")) en pk := by
  simp only [onEvent, circuitEventsOf, jsGet_jsSet_self, Option.getD_some, jsGet_materialize]

theorem circuitEventsOf_onEvent_other (ev : EventsMap) (en : String) (g? : Option String)
    (cls pk cls' g' : String) (h : cls' ≠ cls ∨ g' ≠ g?.getD "default") :
    circuitEventsOf (onEvent ev en g? cls pk) cls' g' = circuitEventsOf ev cls' g' := by
  by_cases hc : cls' = cls
  · subst hc
    have hg : g' ≠ g?.getD "default" := by
      rcases h with h | h
      · exact absurd rfl h
      · exact h
    simp only [onEvent, circuitEventsOf, jsGet_jsSet_self, Option.getD_some]
    rw [jsGet_jsSet_ne _ _ _ _ hg, jsGet_materialize_ne _ _ _ hg, jsGet_materialize]
  · simp only [onEvent, circuitEventsOf]
    rw [jsGet_jsSet_ne _ _ _ _ hc, jsGet_materialize_ne _ _ _ hc]

/- ## The attachment loop -/

theorem registerLoop_mem (fb : Option String) (hf : String → Bool) :
    ∀ (reg : List String) (entries : List (String × String)) (p : String × String),
      p ∈ registerLoop fb hf reg entries → p ∈ entries := by
  intro reg entries
  induction entries generalizing reg with
  | nil => intro p hp; simp [registerLoop] at hp
  | cons a t ih =>
    intro p hp
    obtain ⟨en, mn⟩ := a
    cases h1 : (en == "fallback" && strTruthy fb) with
    | true =>
      simp only [registerLoop, h1, if_true] at hp
      exact List.mem_cons_of_mem _ (ih reg p hp)
    | false =>
      cases h2 : (hf mn && !(List.contains reg mn)) with
      | true =>
        simp only [registerLoop, h1, h2, Bool.false_eq_true, if_false, if_true,
          List.mem_cons] at hp
        rcases hp with hp | hp
        · exact hp ▸ List.mem_cons_self _ _
        · exact List.mem_cons_of_mem _ (ih (mn :: reg) p hp)
      | false =>
        simp only [registerLoop, h1, h2, Bool.false_eq_true, if_false] at hp
        exact List.mem_cons_of_mem _ (ih reg p hp)

/- ## Admission traces from the OPEN state -/

theorem processAdmissions_halfOpen (rt : Nat) :
    ∀ (ts : List Nat), processAdmissions rt CState.halfOpen ts
      = ts.map (fun _ => AdmitResult.rejected GateError.circuitOpenError) := by
  intro ts
  induction ts with
  | nil => rfl
  | cons t ts ih => simp [processAdmissions, admitCall, ih]

theorem mem_zip_map_const {α β : Type} (c : β) :
    ∀ (ts : List α) (p : α × β), p ∈ ts.zip (ts.map (fun _ => c)) → p.2 = c := by
  intro ts
  induction ts with
  | nil => intro p hp; simp at hp
  | cons t ts ih =>
    intro p hp
    simp only [List.map, List.zip_cons_cons, List.mem_cons] at hp
    rcases hp with hp | hp
    · rw [hp]
    · exact ih p hp

theorem processAdmissions_opened_reject (rt t0 : Nat) :
    ∀ (ts : List Nat) (p : Nat × AdmitResult),
      p ∈ ts.zip (processAdmissions rt (CState.opened t0) ts) →
      p.1 < t0 + rt → p.2 = AdmitResult.rejected GateError.circuitOpenError := by
  intro ts
  induction ts with
  | nil => intro p hp _; simp at hp
  | cons t ts ih =>
    intro p hp hlt
    by_cases h : t < t0 + rt
    · simp only [processAdmissions, admitCall] at hp
      rw [if_pos h] at hp
      simp only [List.zip_cons_cons, List.mem_cons] at hp
      rcases hp with hp | hp
      · rw [hp]
      · exact ih p hp hlt
    · simp only [processAdmissions, admitCall] at hp
      rw [if_neg h] at hp
      simp only [List.zip_cons_cons, List.mem_cons] at hp
      rcases hp with hp | hp
      · exfalso
        have hpt : p.1 = t := by rw [hp]
        omega
      · have hp2 : p ∈ ts.zip (processAdmissions rt CState.halfOpen ts) := hp
        rw [processAdmissions_halfOpen] at hp2
        exact mem_zip_map_const _ ts p hp2

theorem countP_rejected_map {α : Type} (e : GateError) (ts : List α) :
    (ts.map (fun _ => AdmitResult.rejected e)).countP
      (fun r => r == AdmitResult.admitted) = 0 := by
  induction ts with
  | nil => rfl
  | cons t ts ih => simp [List.countP_cons, ih]

theorem processAdmissions_opened_count (rt t0 : Nat) :
    ∀ (ts : List Nat),
      (processAdmissions rt (CState.opened t0) ts).countP
          (fun r => r == AdmitResult.admitted)
        = if ts.any (fun t => decide (t0 + rt ≤ t)) then 1 else 0 := by
  intro ts
  induction ts with
  | nil => rfl
  | cons t ts ih =>
    by_cases h : t < t0 + rt
    · have hd : decide (t0 + rt ≤ t) = false := by simp; omega
      simp only [processAdmissions, admitCall]
      rw [if_pos h]
      show List.countP (fun r => r == AdmitResult.admitted)
          (AdmitResult.rejected GateError.circuitOpenError
            :: processAdmissions rt (CState.opened t0) ts) = _
      simp only [List.countP_cons, List.any_cons, hd, Bool.false_or]
      simpa using ih
    · have hd : decide (t0 + rt ≤ t) = true := by simp; omega
      simp only [processAdmissions, admitCall]
      rw [if_neg h]
      show List.countP (fun r => r == AdmitResult.admitted)
          (AdmitResult.admitted :: processAdmissions rt CState.halfOpen ts) = _
      simp [List.countP_cons, List.any_cons, hd, processAdmissions_halfOpen,
        countP_rejected_map]

/- ## Claims -/

/-- C1, counterexample: applying the `CircuitBreaker` decorator twice with the
same circuitGroup does not reuse one live breaker — the two wrapped
operations are bound to distinct breaker instances, refuting the registry
claim at the concrete circuit group `"g"` on class `"ServiceA"`. -/
theorem c1_counterexample :
    (circuitBreakerDecorate
        (circuitBreakerDecorate ⟨0, []⟩ [] "ServiceA" (fun _ => false)
          (some { options := none, circuitGroup := some "g" })).1
        [] "ServiceA" (fun _ => false)
        (some { options := none, circuitGroup := some "g" })).2
      ≠ (circuitBreakerDecorate ⟨0, []⟩ [] "ServiceA" (fun _ => false)
          (some { options := none, circuitGroup := some "g" })).2 := by
  decide

/-- C1 (amended): every application of the `CircuitBreaker` decorator
constructs a fresh, independent breaker instance; two applications — even
against the same events store, the same class and the same circuitGroup —
yield wrapped operations bound to distinct breakers, and each application
grows the set of live breakers by one. -/
theorem c1_fresh_breaker (st : DecoState) (evA evB : EventsMap) (clsA clsB : String)
    (fA fB : String → Bool) (pA pB : Option CircuitBreakerInput) :
    (circuitBreakerDecorate (circuitBreakerDecorate st evA clsA fA pA).1 evB clsB fB pB).2
      ≠ (circuitBreakerDecorate st evA clsA fA pA).2
    ∧ (circuitBreakerDecorate st evA clsA fA pA).1.allocated.length
      = st.allocated.length + 1 := by
  constructor
  · simp [circuitBreakerDecorate]
  · simp [circuitBreakerDecorate]

/-- C2, counterexample: registering two listeners for the same event name
`"open"` on the same circuit keeps only the second — the first registration
`"h1"` is lost from the store and never attached, refuting the claim that
all listeners are retained and invoked in registration order. -/
theorem c2_counterexample :
    jsGet (circuitEventsOf (onEvent (onEvent [] "open" none "ServiceB" "h1")
        "open" none "ServiceB" "h2") "ServiceB" "default") "open" = some "h2"
    ∧ (applyCircuitBreaker (onEvent (onEvent [] "open" none "ServiceB" "h1")
        "open" none "ServiceB" "h2") "ServiceB" (fun _ => true) none).listeners
      = [("open", "h2")]
    ∧ ("open", "h1") ∉ (applyCircuitBreaker (onEvent (onEvent [] "open" none "ServiceB" "h1")
        "open" none "ServiceB" "h2") "ServiceB" (fun _ => true) none).listeners := by
  decide

/-- C2 (amended): registering several listeners for the same event name on
the same circuit retains only the most recent registration — each later
`onEvent` call overwrites the store entry of the earlier one, so only the
last-registered handler remains associated with the event. -/
theorem c2_overwrite (ev : EventsMap) (cls g en mFirst mSecond : String) :
    jsGet (circuitEventsOf
        (onEvent (onEvent ev en (some g) cls mFirst) en (some g) cls mSecond) cls g) en
      = some mSecond := by
  have h := circuitEventsOf_onEvent_self (onEvent ev en (some g) cls mFirst) en (some g) cls mSecond
  simp only [Option.getD_some] at h
  rw [h, jsGet_jsSet_self]

/-- C3: every omitted tunable is filled with its documented default —
timeout 1000 ms, errorThresholdPercentage 20, resetTimeout 5000 ms,
volumeThreshold 5 — and every explicitly supplied value for those four
options is preserved unchanged. -/
theorem c3_defaults (o : Options) (cg : Option String) :
    (o.timeout = none → (resolveOptions (some ⟨some o, cg⟩)).timeout = 1000)
    ∧ (∀ v, o.timeout = some v → (resolveOptions (some ⟨some o, cg⟩)).timeout = v)
    ∧ (o.errorThresholdPercentage = none →
        (resolveOptions (some ⟨some o, cg⟩)).errorThresholdPercentage = 20)
    ∧ (∀ v, o.errorThresholdPercentage = some v →
        (resolveOptions (some ⟨some o, cg⟩)).errorThresholdPercentage = v)
    ∧ (o.resetTimeout = none → (resolveOptions (some ⟨some o, cg⟩)).resetTimeout = 5000)
    ∧ (∀ v, o.resetTimeout = some v → (resolveOptions (some ⟨some o, cg⟩)).resetTimeout = v)
    ∧ (o.volumeThreshold = none → (resolveOptions (some ⟨some o, cg⟩)).volumeThreshold = 5)
    ∧ (∀ v, o.volumeThreshold = some v →
        (resolveOptions (some ⟨some o, cg⟩)).volumeThreshold = v) := by
  refine ⟨fun h => ?_, fun v h => ?_, fun h => ?_, fun v h => ?_, fun h => ?_, fun v h => ?_,
    fun h => ?_, fun v h => ?_⟩ <;>
    simp [resolveOptions, h, MAX_EXECUTION_TIME_MS, ERROR_THRESHOLD_PERCENTAGE,
      CIRCUIT_RESET_TIMEOUT_MS, MIN_REQUEST_COUNT]

/-- C3, witness: a configuration supplying timeout 250 and volumeThreshold 10
keeps both, while the omitted error threshold and reset timeout take the
defaults 20 and 5000. -/
theorem c3_witness :
    (resolveOptions (some ⟨some ⟨some 250, none, none, some 10, none⟩, some "g"⟩)).timeout = 250
    ∧ (resolveOptions (some ⟨some ⟨some 250, none, none, some 10, none⟩,
        some "g"⟩)).errorThresholdPercentage = 20
    ∧ (resolveOptions (some ⟨some ⟨some 250, none, none, some 10, none⟩,
        some "g"⟩)).resetTimeout = 5000
    ∧ (resolveOptions (some ⟨some ⟨some 250, none, none, some 10, none⟩,
        some "g"⟩)).volumeThreshold = 10 :=
  ⟨(c3_defaults ⟨some 250, none, none, some 10, none⟩ (some "g")).2.1 250 rfl,
   (c3_defaults ⟨some 250, none, none, some 10, none⟩ (some "g")).2.2.1 rfl,
   (c3_defaults ⟨some 250, none, none, some 10, none⟩ (some "g")).2.2.2.2.1 rfl,
   (c3_defaults ⟨some 250, none, none, some 10, none⟩ (some "g")).2.2.2.2.2.2.2 10 rfl⟩

/-- C9: the breaker's group is always the decorator's circuitGroup parameter,
defaulting to `"default"` when absent; a `group` field supplied inside the
options object is silently overwritten and never influences the resolved
configuration. -/
theorem c9_group_override (o : Options) (gIn : String) (cg : Option String) :
    resolveOptions (some ⟨some { o with group := some gIn }, cg⟩)
      = resolveOptions (some ⟨some { o with group := none }, cg⟩)
    ∧ (resolveOptions (some ⟨some o, cg⟩)).group = cg.getD "default"
    ∧ (resolveOptions none).group = "default" :=
  ⟨rfl, rfl, rfl⟩

/-- C4: at most one fallback handler is active per breaker (the decorator
registers the single `"fallback"` entry of the circuit's map, if any); when
the gate short-circuits to failure, the registered handler is invoked with
the original call arguments and the triggering error, and the value it
returns — or the error it raises, wrapped as `fallbackFailure` — becomes the
guarded call's final outcome. -/
theorem c4_fallback (events : EventsMap) (cls : String) (hfn : String → Bool)
    (params : Option CircuitBreakerInput)
    (impl : List Arg × GateError → Except ErrVal Value)
    (args : List Arg) (e : GateError) (rt t now : Nat) (op : Operation) :
    (∀ mA mB : String, (applyCircuitBreaker events cls hfn params).fallback = some mA →
        (applyCircuitBreaker events cls hfn params).fallback = some mB → mA = mB)
    ∧ (∀ v, impl (args, e) = .ok v →
        finishCall (some (decoratorFallback impl)) args (.error e) = .ok v)
    ∧ (∀ eF, impl (args, e) = .error eF →
        finishCall (some (decoratorFallback impl)) args (.error e)
          = .error (.fallbackFailure eF))
    ∧ (now < t + rt →
        (gateStep rt (some (decoratorFallback impl)) op (CState.opened t) now args).1.result
          = finishCall (some (decoratorFallback impl)) args (.error .circuitOpenError)) := by
  refine ⟨?_, ?_, ?_, ?_⟩
  · intro mA mB h1 h2
    rw [h1] at h2
    exact Option.some.inj h2
  · intro v h
    simp [finishCall, decoratorFallback, h]
  · intro eF h
    simp [finishCall, decoratorFallback, h]
  · intro h
    simp only [gateStep, admitCall]
    rw [if_pos h]

/-- C4, witness: with a fallback returning 42, a call short-circuited by an
open circuit ends with 42 as the guarded call's outcome. -/
theorem c4_witness :
    finishCall (some (decoratorFallback (fun _ => Except.ok 42))) [7]
        (Except.error GateError.timeoutError) = Except.ok 42
    ∧ (gateStep 5000 (some (decoratorFallback (fun _ => Except.ok 42)))
        (fun _ => Except.error 0) (CState.opened 100) 200 [7]).1.result
      = finishCall (some (decoratorFallback (fun _ => Except.ok 42))) [7]
        (Except.error GateError.circuitOpenError) :=
  ⟨(c4_fallback [] "S" (fun _ => false) none (fun _ => Except.ok 42) [7]
      GateError.timeoutError 5000 100 200 (fun _ => Except.error 0)).2.1 42 rfl,
   (c4_fallback [] "S" (fun _ => false) none (fun _ => Except.ok 42) [7]
      GateError.circuitOpenError 5000 100 200 (fun _ => Except.error 0)).2.2.2 (by decide)⟩

/-- C5: the replaced descriptor hands its argument list, unchanged and in
order, to the breaker's fire path, and the wrapped call's outcome is exactly
what that path produces: in the CLOSED state the underlying operation is
invoked on precisely the given arguments and its value — or its error,
wrapped as the taxonomy's `operationFailure` — is the result. -/
theorem c5_forwarding (rt : Nat) (fb : Option FallbackHandler) (op : Operation)
    (st : CState) (now : Nat) (args : List Arg) :
    wrappedOperation rt fb op st now args = gateStep rt fb op st now args
    ∧ (gateStep rt none op CState.closed now args).1.result
      = (match op args with
         | .ok v => .ok v
         | .error e => .error (.operationFailure e))
    ∧ (gateStep rt none op CState.closed now args).1.invokedOp = true := by
  refine ⟨rfl, ?_, ?_⟩ <;> cases h : op args <;> simp [gateStep, admitCall, finishCall, h]

/-- C6: when no fallback is registered for the circuit, the decorator
registers none on the breaker, and a failing guarded call propagates the
gate's error to the caller unchanged — no interception, no substitute
value. -/
theorem c6_no_fallback (events : EventsMap) (cls : String) (hfn : String → Bool)
    (params : Option CircuitBreakerInput) (args : List Arg) (e : GateError)
    (rt t now : Nat) (op : Operation)
    (hnone : jsGet (circuitEventsOf events cls (resolveOptions params).group) "fallback"
      = none) :
    (applyCircuitBreaker events cls hfn params).fallback = none
    ∧ finishCall none args (.error e) = .error e
    ∧ (now < t + rt →
        (gateStep rt none op (CState.opened t) now args).1.result
          = .error .circuitOpenError) := by
  refine ⟨?_, rfl, ?_⟩
  · simp [applyCircuitBreaker, hnone, strTruthy]
  · intro h
    simp only [gateStep, admitCall]
    rw [if_pos h]
    rfl

/-- C6, witness: with an empty events store, no fallback is registered and a
timed-out call's error reaches the caller unchanged. -/
theorem c6_witness :
    (applyCircuitBreaker [] "S" (fun _ => true) none).fallback = none
    ∧ finishCall none [3] (Except.error GateError.timeoutError)
      = Except.error GateError.timeoutError :=
  ⟨(c6_no_fallback [] "S" (fun _ => true) none [3] GateError.timeoutError 1 0 0
      (fun _ => Except.ok 0) (by decide)).1,
   (c6_no_fallback [] "S" (fun _ => true) none [3] GateError.timeoutError 1 0 0
      (fun _ => Except.ok 0) (by decide)).2.1⟩

/-- C7: listeners are scoped per circuit identity — every listener the
decorator attaches comes from the registrations stored for exactly this
class name and this circuit group (with `"default"` as the group on both
sides when omitted), and an `onEvent` registration never alters the bucket
of a different class or group. -/
theorem c7_listener_scoping (events : EventsMap) (cls : String) (hfn : String → Bool)
    (params : Option CircuitBreakerInput) (en m : String)
    (hmem : (en, m) ∈ (applyCircuitBreaker events cls hfn params).listeners) :
    (en, m) ∈ circuitEventsOf events cls (resolveOptions params).group
    ∧ (∀ (ev : EventsMap) (enB : String) (gB : Option String) (clsB pkB clsC gC : String),
        clsC ≠ clsB ∨ gC ≠ gB.getD "default" →
        circuitEventsOf (onEvent ev enB gB clsB pkB) clsC gC = circuitEventsOf ev clsC gC)
    ∧ (resolveOptions none).group = "default"
    ∧ (∀ (ev : EventsMap) (enB clsB pkB : String),
        circuitEventsOf (onEvent ev enB none clsB pkB) clsB "default"
          = jsSet (circuitEventsOf ev clsB "default") enB pkB) := by
  refine ⟨?_, ?_, rfl, ?_⟩
  · simp only [applyCircuitBreaker] at hmem
    exact registerLoop_mem _ hfn _ _ _ hmem
  · intro ev enB gB clsB pkB clsC gC h
    exact circuitEventsOf_onEvent_other ev enB gB clsB pkB clsC gC h
  · intro ev enB clsB pkB
    exact circuitEventsOf_onEvent_self ev enB none clsB pkB

/-- C7, witness: a handler registered for `"open"` on class `"S"` under the
default group is among that circuit's stored registrations once the
decorator has attached it. -/
theorem c7_witness :
    ("open", "h") ∈ circuitEventsOf (onEvent [] "open" none "S" "h") "S" "default" :=
  (c7_listener_scoping (onEvent [] "open" none "S" "h") "S" (fun _ => true) none
    "open" "h" (by decide)).1

/-- C8: once the circuit is OPEN, every call arriving before the reset
timeout has elapsed is rejected with `circuitOpenError` and the underlying
operation is not invoked; among any sequence of calls arriving while the
trial is still outstanding, exactly one — the first at or after the
cooldown boundary — is admitted, and that admission is the transition to
HALF_OPEN. -/
theorem c8_open_behavior (rt t0 : Nat) (times : List Nat) :
    (∀ p ∈ times.zip (processAdmissions rt (CState.opened t0) times),
        p.1 < t0 + rt → p.2 = AdmitResult.rejected GateError.circuitOpenError)
    ∧ (processAdmissions rt (CState.opened t0) times).countP
        (fun r => r == AdmitResult.admitted)
      = (if times.any (fun t => decide (t0 + rt ≤ t)) then 1 else 0)
    ∧ (∀ now, t0 + rt ≤ now →
        admitCall rt (CState.opened t0) now = (AdmitResult.admitted, CState.halfOpen))
    ∧ (∀ (fb : Option FallbackHandler) (op : Operation) (args : List Arg) (now : Nat),
        now < t0 + rt →
        (gateStep rt fb op (CState.opened t0) now args).1.invokedOp = false) := by
  refine ⟨?_, processAdmissions_opened_count rt t0 times, ?_, ?_⟩
  · intro p hp hlt
    exact processAdmissions_opened_reject rt t0 times p hp hlt
  · intro now hle
    simp only [admitCall]
    rw [if_neg (by omega)]
  · intro fb op args now hlt
    simp only [gateStep, admitCall]
    rw [if_pos hlt]

/-- C8, witness: with reset timeout 10 and opening time 0, the calls at times
3, 12, 15 see: rejection, the single HALF_OPEN trial admission, rejection;
the admitted count is one, the admission at time 12 enters HALF_OPEN, and a
rejected call at time 4 never invokes the operation. -/
theorem c8_witness :
    ((3, AdmitResult.rejected GateError.circuitOpenError) : Nat × AdmitResult).2
      = AdmitResult.rejected GateError.circuitOpenError
    ∧ (processAdmissions 10 (CState.opened 0) [3, 12, 15]).countP
        (fun r => r == AdmitResult.admitted) = 1
    ∧ admitCall 10 (CState.opened 0) 12 = (AdmitResult.admitted, CState.halfOpen)
    ∧ (gateStep 10 none (fun _ => Except.ok 0) (CState.opened 0) 4 [1]).1.invokedOp
      = false :=
  ⟨(c8_open_behavior 10 0 [3, 12, 15]).1
      (3, AdmitResult.rejected GateError.circuitOpenError) (by decide) (by decide),
   by rw [(c8_open_behavior 10 0 [3, 12, 15]).2.1]; decide,
   (c8_open_behavior 10 0 [3, 12, 15]).2.2.1 12 (by decide),
   (c8_open_behavior 10 0 [3, 12, 15]).2.2.2 none (fun _ => Except.ok 0) [1] 4 (by decide)⟩

/-- C10, counterexample: the claim fails when the first of the two event
names is `"fallback"` — the handler `"m"`, registered under `"fallback"`
first and `"open"` second, is attached for the second event name `"open"`:
the loop skips the fallback entry (line 60's continue) before the
deduplication check ever records the method name, so the second event name
does get a listener, refuting the claim as stated. -/
theorem c10_counterexample :
    (applyCircuitBreaker [("S", [("default", [("fallback", "m"), ("open", "m")])])] "S"
        (fun _ => true) (some { options := none, circuitGroup := some "default" })).listeners
      = [("open", "m")]
    ∧ ("open", "m") ∈ (applyCircuitBreaker
        [("S", [("default", [("fallback", "m"), ("open", "m")])])] "S"
        (fun _ => true) (some { options := none, circuitGroup := some "default" })).listeners := by
  decide

/-- C10 (amended): one handler method registered under two distinct event
names, neither of which is `"fallback"`, is attached only for the event
name encountered first in registration order; the second event name ends up
with no listener, since the decorator's deduplication set is keyed on the
handler's method name rather than the event name.  (When the first name is
`"fallback"` with a usable handler, the fallback entry is skipped before
deduplication and the handler is attached for the second event name — see
the counterexample.) -/
theorem c10_dedup_by_method (cls g eFirst eSecond m : String) (hfn : String → Bool)
    (h1 : eFirst ≠ "fallback") (h2 : eSecond ≠ "fallback") (hm : hfn m = true)
    (hne : eFirst ≠ eSecond) :
    (applyCircuitBreaker [(cls, [(g, [(eFirst, m), (eSecond, m)])])] cls hfn
        (some { options := none, circuitGroup := some g })).listeners = [(eFirst, m)]
    ∧ ∀ x, (eSecond, x) ∉ (applyCircuitBreaker [(cls, [(g, [(eFirst, m), (eSecond, m)])])]
        cls hfn (some { options := none, circuitGroup := some g })).listeners := by
  have hb1 : (eFirst == "fallback") = false := beq_false_of_ne _ _ h1
  have hb2 : (eSecond == "fallback") = false := beq_false_of_ne _ _ h2
  have hL : (applyCircuitBreaker [(cls, [(g, [(eFirst, m), (eSecond, m)])])] cls hfn
      (some { options := none, circuitGroup := some g })).listeners = [(eFirst, m)] := by
    simp [applyCircuitBreaker, circuitEventsOf, resolveOptions, jsGet, registerLoop,
      strTruthy, hb1, hb2, hm, List.contains]
  refine ⟨hL, ?_⟩
  intro x hx
  rw [hL] at hx
  simp only [List.mem_singleton, Prod.mk.injEq] at hx
  exact hne (hx.1.symm)

/-- C10, witness: the handler `"h"` registered for `"open"` and then
`"close"` on the default group of class `"S"` is attached only for
`"open"`. -/
theorem c10_witness :
    (applyCircuitBreaker [("S", [("default", [("open", "h"), ("close", "h")])])] "S"
        (fun _ => true) (some { options := none, circuitGroup := some "default" })).listeners
      = [("open", "h")] :=
  (c10_dedup_by_method "S" "default" "open" "close" "h" (fun _ => true)
    (by decide) (by decide) rfl (by decide)).1

end CB
